import Mathlib

/-!
# Verification of the token-authenticated account service

A shallow embedding of the core of the service: the login route
(`routes/auth.js`), the JWT middleware (`middleware/auth.js`) and the
account routes (`routes/account.js`), over the in-memory user store
(`data/store.js`).

Modelling conventions:
* JavaScript numbers are modelled as exact rationals (`ℚ`) plus an
  explicit `NaN` marker; the amounts and rates in this system are small
  decimals, and none of the claims hinge on float rounding.
* `Number(v)` coercion is modelled by `toNumber` over a `JsValue` type
  covering the ECMAScript cases relevant here: `undefined`, `null`,
  booleans, numbers, and strings under the decimal-literal grammar
  (optional sign, digits, optional fraction; whitespace trimmed; the
  empty / all-whitespace string coerces to 0).  Hex, exponent and
  `Infinity` forms are outside the inputs the claims quantify over.
* The JWT library is abstracted as a perfect MAC: a signature is valid
  exactly when it was produced with the same secret over the same
  payload, and `jwtVerify` accepts while `now < exp` (jsonwebtoken
  rejects once `clockTimestamp >= exp`).
* `bcrypt` is abstracted as a perfect hash: `bcryptCompare p h` holds
  exactly when `h` is the stored hash of `p`.
* The JavaScript property read `users[username]` traverses the
  prototype chain: when the username is no own key of the store object
  it can still find an inherited, truthy `Object.prototype` member
  (`constructor`, `toString`, ...) that is not a user record;
  `jsPropLookup` models the three outcomes (own record, inherited
  member, undefined).
* The mutable store is an association list from username to user
  record; the in-place mutation `account.balance -= amount` becomes a
  functional update of the matching entry.
-/

namespace BankApi

/-- A JavaScript number: either `NaN` or an exact value. -/
inductive JsNum where
  | nan : JsNum
  | val : ℚ → JsNum
deriving DecidableEq

/-- The JavaScript values a request body field can hold, as far as the
claims need: `undefined` (absent field), `null`, booleans, numbers and
strings. -/
inductive JsValue where
  | undefined : JsValue
  | null : JsValue
  | bool : Bool → JsValue
  | num : JsNum → JsValue
  | str : String → JsValue

/-- ECMAScript string whitespace (the subset that occurs in practice). -/
def isJsWhitespace (c : Char) : Bool :=
  c = ' ' || c = '\t' || c = '\n' || c = '\r'

/-- Trim leading and trailing whitespace from a character list. -/
def jsTrim (cs : List Char) : List Char :=
  ((cs.dropWhile isJsWhitespace).reverse.dropWhile isJsWhitespace).reverse

/-- Value of a non-empty all-digit character list, `none` otherwise. -/
def digitsVal : List Char → ℕ → Option ℕ
  | [], acc => some acc
  | c :: cs, acc =>
      if c.isDigit then digitsVal cs (acc * 10 + (c.toNat - 48)) else none

/-- Parse a non-empty digit run as a natural number. -/
def parseDigits (cs : List Char) : Option ℕ :=
  if cs.isEmpty then none else digitsVal cs 0

/-- Parse an unsigned decimal literal: `digits`, `digits.digits`,
`digits.` or `.digits`. -/
def parseUnsignedDec (cs : List Char) : Option ℚ :=
  match cs.splitOn '.' with
  | [intPart] => (parseDigits intPart).map (fun n => (n : ℚ))
  | [intPart, fracPart] =>
      if intPart.isEmpty then
        (parseDigits fracPart).map
          (fun f => (f : ℚ) / (10 : ℚ) ^ fracPart.length)
      else if fracPart.isEmpty then
        (parseDigits intPart).map (fun n => (n : ℚ))
      else
        match parseDigits intPart, parseDigits fracPart with
        | some n, some f =>
            some ((n : ℚ) + (f : ℚ) / (10 : ℚ) ^ fracPart.length)
        | _, _ => none
  | _ => none

/-- ECMAScript `StringToNumber` on the decimal subset: trim whitespace,
empty result is `0`, else an optionally signed decimal literal, and
anything else is `NaN`. -/
def stringToNumber (s : String) : JsNum :=
  match jsTrim s.toList with
  | [] => .val 0
  | '-' :: rest =>
      match parseUnsignedDec rest with
      | some q => .val (-q)
      | none => .nan
  | '+' :: rest =>
      match parseUnsignedDec rest with
      | some q => .val q
      | none => .nan
  | cs =>
      match parseUnsignedDec cs with
      | some q => .val q
      | none => .nan

/-- The `Number(v)` coercion applied by the withdraw route. -/
def toNumber : JsValue → JsNum
  | .undefined => .nan
  | .null => .val 0
  | .bool b => .val (if b then 1 else 0)
  | .num n => n
  | .str s => stringToNumber s

/-- One account ledger entry (`data/store.js`). -/
structure Account where
  balance : ℚ
  interestRate : ℚ
  lastWithdrawal : Option ℚ
  currency : String
deriving DecidableEq

/-- One identity record in the user store. -/
structure UserRec where
  passwordHash : String
  account : Account
deriving DecidableEq

/-- The in-memory user store: an association list keyed by username. -/
abbrev Store := List (String × UserRec)

/-- Look up a username in the store (`users[username]`). -/
def Store.find? : Store → String → Option UserRec
  | [], _ => none
  | p :: ps, u => if p.1 = u then some p.2 else Store.find? ps u

/-- Resolve the account for the request's user
(`getAccountForReq` in `routes/account.js`): the username comes from
the verified token payload; a missing or falsy (empty) username yields
`none`, as does an absent store entry. -/
def getAccount (store : Store) (username : Option String) : Option Account :=
  match username with
  | none => none
  | some u =>
      if u = "" then none
      else
        match store.find? u with
        | none => none
        | some r => some r.account

/-- Replace the account of every entry keyed `u` (the functional image
of the in-place mutation of `users[u].account`). -/
def Store.setAccount (store : Store) (username : Option String)
    (acct : Account) : Store :=
  match username with
  | none => store
  | some u =>
      store.map (fun p => if p.1 = u then (p.1, { p.2 with account := acct }) else p)

/-- The four reportable withdraw errors, in the order the route checks
them. -/
inductive WithdrawError where
  | NotANumber : WithdrawError
  | InvalidAmount : WithdrawError
  | NotFound : WithdrawError
  | InsufficientFunds : WithdrawError
deriving DecidableEq

/-- HTTP status each withdraw error is reported with. -/
def WithdrawError.status : WithdrawError → ℕ
  | .NotFound => 404
  | _ => 400

/-- Client-facing message of each withdraw error. -/
def WithdrawError.message : WithdrawError → String
  | .NotANumber => "Amount must be a number"
  | .InvalidAmount => "Invalid withdrawal amount"
  | .NotFound => "Account not found"
  | .InsufficientFunds => "Insufficient funds"

/-- The success body of the withdraw route. -/
structure WithdrawOk where
  message : String
  balance : ℚ
  lastWithdrawal : ℚ
deriving DecidableEq

/-- Outcome of a withdraw call. -/
inductive WithdrawOutcome where
  | ok : WithdrawOk → WithdrawOutcome
  | err : WithdrawError → WithdrawOutcome
deriving DecidableEq

/-- The withdraw route (`POST /withdraw` in `routes/account.js`):
coerce the request amount with `Number`, reject `NaN`, reject
non-positive amounts, resolve the account, reject amounts above the
balance, and otherwise decrement the balance and record the
withdrawal, in one step.  Returns the response outcome together with
the (possibly updated) store. -/
def withdraw (store : Store) (username : Option String)
    (rawAmount : JsValue) : WithdrawOutcome × Store :=
  match toNumber rawAmount with
  | .nan => (.err .NotANumber, store)
  | .val amount =>
      if amount ≤ 0 then (.err .InvalidAmount, store)
      else
        match getAccount store username with
        | none => (.err .NotFound, store)
        | some account =>
            if account.balance < amount then (.err .InsufficientFunds, store)
            else
              let updated : Account :=
                { account with
                    balance := account.balance - amount
                    lastWithdrawal := some amount }
              (.ok ⟨"Withdrawal successful", updated.balance, amount⟩,
               store.setAccount username updated)

/-- Run a sequence of withdraw requests, threading the store. -/
def runWithdrawals (store : Store) (reqs : List (Option String × JsValue)) :
    Store :=
  reqs.foldl (fun s r => (withdraw s r.1 r.2).2) store

/-- Every account in the store has a non-negative balance. -/
def nonNegBalances (store : Store) : Prop :=
  ∀ p ∈ store, 0 ≤ p.2.account.balance

/-- The success body of the interest route. -/
structure InterestView where
  balance : ℚ
  interestRate : ℚ
  yearlyInterest : ℚ
  monthlyInterest : ℚ
  currency : String
deriving DecidableEq

/-- The interest route (`GET /interest` in `routes/account.js`):
resolve the account and report `balance * interestRate` and its
twelfth; the store is returned unchanged (the handler never writes). -/
def projectInterest (store : Store) (username : Option String) :
    Option InterestView × Store :=
  match getAccount store username with
  | none => (none, store)
  | some a =>
      let yearly := a.balance * a.interestRate
      (some ⟨a.balance, a.interestRate, yearly, yearly / 12, a.currency⟩, store)

/-- The claims a signed token carries (`jwt.sign({username}, secret,
expiresIn 1h)` adds issued-at and expiry). -/
structure TokenPayload where
  username : String
  iat : ℕ
  exp : ℕ
deriving DecidableEq

/-- A signed token.  The signature is abstracted as a perfect MAC: the
secret paired with the signed payload, so it verifies against exactly
the secret and payload it was produced from. -/
structure Token where
  payload : TokenPayload
  sig : String × TokenPayload
deriving DecidableEq

/-- Token issuance (`jwt.sign({username}, secret, {expiresIn: '1h'})`
in `routes/auth.js`): expiry is issued-at plus 3600 seconds. -/
def jwtSign (secret : String) (username : String) (now : ℕ) : Token :=
  let p : TokenPayload := ⟨username, now, now + 3600⟩
  ⟨p, (secret, p)⟩

/-- Token verification (`jwt.verify(token, secret)`): the signature
must match the secret and payload, and the current time must be before
the expiry (jsonwebtoken raises TokenExpiredError once
`now >= exp`). -/
def jwtVerify (secret : String) (t : Token) (now : ℕ) : Option TokenPayload :=
  if t.sig = (secret, t.payload) ∧ now < t.payload.exp then some t.payload
  else none

/-- The two authorization-gate rejections. -/
inductive AuthError where
  | MissingOrInvalidHeader : AuthError
  | InvalidOrExpiredToken : AuthError
deriving DecidableEq

/-- Both auth rejections are reported with HTTP 401. -/
def AuthError.status : AuthError → ℕ := fun _ => 401

/-- Client-facing message of each auth rejection
(`middleware/auth.js`). -/
def AuthError.message : AuthError → String
  | .MissingOrInvalidHeader => "Missing or invalid Authorization header"
  | .InvalidOrExpiredToken => "Invalid or expired token"

/-- Split a character list at every occurrence of `sep`, keeping empty
groups, exactly as JavaScript `String.prototype.split` with a
single-character separator does (so `""` splits to `[""]`). -/
def splitOnChar (sep : Char) : List Char → List (List Char)
  | [] => [[]]
  | c :: cs =>
      let rest := splitOnChar sep cs
      if c = sep then [] :: rest
      else
        match rest with
        | [] => [[c]]
        | g :: gs => (c :: g) :: gs

/-- The structural part of the middleware (`middleware/auth.js` lines
4-8): a missing header is treated as `""`, the header must split on
spaces into exactly two parts with the first literally `"Bearer"`, and
the second part is the candidate token string. -/
def parseAuthHeader (header : Option String) : Option String :=
  match splitOnChar ' ' (header.getD "").toList with
  | [scheme, tok] =>
      if scheme = "Bearer".toList then some (String.mk tok) else none
  | _ => none

/-- The auth middleware (`middleware/auth.js`): structural header
check first, then decode the compact serialization (`decode` abstracts
the wire format; it is only consulted after the structural check) and
verify signature and expiry; on success the payload's username is
exposed to the route. -/
def authMiddleware (secret : String) (decode : String → Option Token)
    (header : Option String) (now : ℕ) : Except AuthError String :=
  match parseAuthHeader header with
  | none => .error .MissingOrInvalidHeader
  | some tokenStr =>
      match decode tokenStr with
      | none => .error .InvalidOrExpiredToken
      | some t =>
          match jwtVerify secret t now with
          | none => .error .InvalidOrExpiredToken
          | some payload => .ok payload.username

/-- Perfect-hash abstraction of `bcrypt.hashSync`. -/
def bcryptHash (password : String) : String := "bcrypt$" ++ password

/-- Perfect-hash abstraction of `bcrypt.compare`: succeeds exactly on
the hashed password. -/
def bcryptCompare (password hash : String) : Bool := hash = bcryptHash password

/-- The own property names of `Object.prototype`, every one of whose
values is truthy (eleven methods plus the `__proto__` accessor, which
yields the prototype object itself). -/
def objectPrototypeNames : List String :=
  ["constructor", "hasOwnProperty", "isPrototypeOf", "propertyIsEnumerable",
   "toLocaleString", "toString", "valueOf", "__defineGetter__",
   "__defineSetter__", "__lookupGetter__", "__lookupSetter__", "__proto__"]

/-- Outcome of the JavaScript property read `users[username]` on the
store object: an own entry (a user record), an inherited truthy
`Object.prototype` member that is no user record, or `undefined`. -/
inductive PropLookup where
  | own : UserRec → PropLookup
  | inherited : PropLookup
  | missing : PropLookup
deriving DecidableEq

/-- The property read `users[username]`: own keys first, then the
prototype chain (`Object.prototype`), else `undefined`. -/
def jsPropLookup (store : Store) (name : String) : PropLookup :=
  match store.find? name with
  | some r => .own r
  | none => if name ∈ objectPrototypeNames then .inherited else .missing

/-- Outcome of a login call.  `fault` is the handler faulting:
`bcrypt.compare` invoked with an `undefined` hash rejects with
`Illegal arguments`, so the async route does not produce its own
response (unhandled rejection, surfacing as a crash or a generic
500). -/
inductive LoginResult where
  | token : Token → LoginResult
  | failure : ℕ → String → LoginResult
  | fault : LoginResult
deriving DecidableEq

/-- The login route (`POST /login` in `routes/auth.js`): read
`users[username]` (a prototype-chain property read), return 401 only
when that read is falsy, otherwise compare the password against the
record's `passwordHash` — which for an inherited `Object.prototype`
member is `undefined`, so `bcrypt.compare` faults — and issue a token
on a match; the two guarded failure paths share one 401 response. -/
def login (secret : String) (store : Store) (username password : String)
    (now : ℕ) : LoginResult :=
  match jsPropLookup store username with
  | .missing => .failure 401 "Invalid credentials"
  | .inherited => .fault
  | .own user =>
      if bcryptCompare password user.passwordHash then
        .token (jwtSign secret username now)
      else .failure 401 "Invalid credentials"

/-- An HTTP-level endpoint outcome: a success body or a status and
message. -/
inductive EndpointResult (α : Type) where
  | success : α → EndpointResult α
  | failure : ℕ → String → EndpointResult α
deriving DecidableEq

/-- `GET /api/account`: middleware, then account resolution. -/
def accountEndpoint (secret : String) (decode : String → Option Token)
    (header : Option String) (now : ℕ) (store : Store) :
    EndpointResult Account :=
  match authMiddleware secret decode header now with
  | .error e => .failure e.status e.message
  | .ok username =>
      match getAccount store (some username) with
      | none => .failure 404 "Account not found"
      | some a => .success a

/-- `POST /api/account/withdraw`: middleware, then the withdraw
operation; the (possibly updated) store is returned alongside. -/
def withdrawEndpoint (secret : String) (decode : String → Option Token)
    (header : Option String) (now : ℕ) (store : Store)
    (rawAmount : JsValue) : EndpointResult WithdrawOk × Store :=
  match authMiddleware secret decode header now with
  | .error e => (.failure e.status e.message, store)
  | .ok username =>
      match withdraw store (some username) rawAmount with
      | (.err e, s) => (.failure e.status e.message, s)
      | (.ok r, s) => (.success r, s)

/-- `GET /api/account/interest`: middleware, then the interest
projection. -/
def interestEndpoint (secret : String) (decode : String → Option Token)
    (header : Option String) (now : ℕ) (store : Store) :
    EndpointResult InterestView :=
  match authMiddleware secret decode header now with
  | .error e => .failure e.status e.message
  | .ok username =>
      match projectInterest store (some username) with
      | (none, _) => .failure 404 "Account not found"
      | (some v, _) => .success v

/-- The seed store of `data/store.js`: `customer1` with password
`bank123`, balance 2000, rate 0.05, no withdrawal yet, USD. -/
def seedStore : Store :=
  [("customer1",
    ⟨bcryptHash "bank123", ⟨2000, 1 / 20, none, "USD"⟩⟩)]

/-! ## Helper lemmas -/

unseal Rat.add Rat.sub Rat.mul Rat.inv Rat.ofScientific

theorem find?_setAccount (s : Store) (u : String) (a2 : Account) :
    Store.find? (Store.setAccount s (some u) a2) u =
      (Store.find? s u).map (fun r => { r with account := a2 }) := by
  induction s with
  | nil => rfl
  | cons p ps ih =>
      by_cases h : p.1 = u
      · simp [Store.setAccount, Store.find?, h]
      · simpa [Store.setAccount, Store.find?, h] using ih

theorem getAccount_setAccount (s : Store) (u : String) (a2 : Account)
    (h : ¬ u = "") :
    getAccount (Store.setAccount s (some u) a2) (some u) =
      (Store.find? s u).map (fun _ => a2) := by
  simp only [getAccount, if_neg h, find?_setAccount]
  cases Store.find? s u <;> rfl

/-- Resolving an account decomposes the optional username into a
non-empty name with a store entry carrying that account. -/
theorem getAccount_eq_some (store : Store) (u : Option String)
    (acct : Account) (h : getAccount store u = some acct) :
    ∃ un r, u = some un ∧ ¬ un = "" ∧ Store.find? store un = some r ∧
      r.account = acct := by
  cases u with
  | none => simp [getAccount] at h
  | some un =>
      by_cases he : un = ""
      · simp [getAccount, he] at h
      · cases hf : Store.find? store un with
        | none => simp [getAccount, he, hf] at h
        | some r =>
            refine ⟨un, r, rfl, he, hf, ?_⟩
            simpa [getAccount, he, hf] using h

/-- A single withdraw request keeps every balance in the store
non-negative. -/
theorem nonNegBalances_withdraw (store : Store) (u : Option String)
    (raw : JsValue) (h : nonNegBalances store) :
    nonNegBalances (withdraw store u raw).2 := by
  unfold withdraw
  cases hn : toNumber raw with
  | nan => exact h
  | val amount =>
      by_cases hle : amount ≤ 0
      · simpa [hle] using h
      · cases hg : getAccount store u with
        | none => simpa [hle, hg] using h
        | some acct =>
            by_cases hins : acct.balance < amount
            · simpa [hle, hg, hins] using h
            · obtain ⟨un, r, hu, -, -, -⟩ := getAccount_eq_some store u acct hg
              subst hu
              simp only [hle, hg, hins, if_neg, if_false]
              intro p hp
              simp only [Store.setAccount, List.mem_map] at hp
              obtain ⟨q, hq, hpq⟩ := hp
              by_cases hk : q.1 = un
              · subst hpq
                simp only [hk, if_pos]
                exact sub_nonneg.mpr (not_lt.mp hins)
              · subst hpq
                simp only [hk, if_neg, if_false]
                exact h q hq

/-! ## Claims -/

/-- C1: starting from a store whose balances are all non-negative, no
sequence of withdraw requests ever drives a balance negative; and a
withdrawal of more than the (non-negative) current balance fails with
`InsufficientFunds` and returns the store unchanged. -/
theorem withdraw_balance_invariant (store : Store) :
    (∀ reqs, nonNegBalances store → nonNegBalances (runWithdrawals store reqs))
  ∧ (∀ u raw a acct, toNumber raw = .val a → getAccount store u = some acct →
      0 ≤ acct.balance → acct.balance < a →
      withdraw store u raw = (.err .InsufficientFunds, store)) := by
  constructor
  · intro reqs
    induction reqs generalizing store with
    | nil => intro h; exact h
    | cons r rs ih =>
        intro h
        have h1 := nonNegBalances_withdraw store r.1 r.2 h
        simpa [runWithdrawals, List.foldl_cons] using ih _ h1
  · intro u raw a acct hn hg hnn hlt
    have hpos : ¬ a ≤ 0 := not_le.mpr (lt_of_le_of_lt hnn hlt)
    simp [withdraw, hn, hpos, hg, hlt]

/-- C1 witness: on the seed store, a run of three withdraw requests
keeps balances non-negative, and withdrawing 2500 from the balance of
2000 fails with `InsufficientFunds` leaving the store unchanged. -/
theorem withdraw_balance_invariant_witness :
    nonNegBalances (runWithdrawals seedStore
      [(some "customer1", .str "50"), (some "customer1", .num (.val 3000)),
       (some "customer1", .null)])
  ∧ withdraw seedStore (some "customer1") (.num (.val 2500))
      = (.err .InsufficientFunds, seedStore) :=
  ⟨(withdraw_balance_invariant seedStore).1 _ (by unfold nonNegBalances; decide),
   (withdraw_balance_invariant seedStore).2 (some "customer1")
     (.num (.val 2500)) 2500 ⟨2000, 1 / 20, none, "USD"⟩
     rfl (by decide) (by decide) (by decide)⟩

/-- C2: a withdraw call whose amount is numeric, strictly positive and
at most the resolved account's balance succeeds: the response reports
the new balance (old minus amount) and the recorded withdrawal, and
the store transition is the single update of that account to the
record with the decremented balance, `lastWithdrawal` set to the
amount, and `interestRate` and `currency` untouched. -/
theorem withdraw_success_spec (store : Store) (u : Option String)
    (raw : JsValue) (a : ℚ) (acct : Account)
    (h1 : toNumber raw = .val a) (h2 : 0 < a)
    (h3 : getAccount store u = some acct) (h4 : a ≤ acct.balance) :
    (withdraw store u raw).1 =
      .ok ⟨"Withdrawal successful", acct.balance - a, a⟩
  ∧ (withdraw store u raw).2 =
      store.setAccount u
        { balance := acct.balance - a, interestRate := acct.interestRate,
          lastWithdrawal := some a, currency := acct.currency }
  ∧ getAccount (withdraw store u raw).2 u =
      some { balance := acct.balance - a, interestRate := acct.interestRate,
             lastWithdrawal := some a, currency := acct.currency } := by
  have hle : ¬ a ≤ 0 := not_le.mpr h2
  have hins : ¬ acct.balance < a := not_lt.mpr h4
  obtain ⟨un, r, hu, hne, hf, hra⟩ := getAccount_eq_some store u acct h3
  subst hu
  refine ⟨by simp [withdraw, h1, hle, h3, hins], by simp [withdraw, h1, hle, h3, hins], ?_⟩
  simp only [withdraw, h1, hle, h3, hins, if_neg, if_false]
  rw [getAccount_setAccount store un _ hne, hf]
  rfl

/-- C2 witness: withdrawing the string-coerced amount 50 from the seed
account succeeds, reports balance 1950 and lastWithdrawal 50, and
leaves rate and currency unchanged. -/
theorem withdraw_success_spec_witness :
    (withdraw seedStore (some "customer1") (.str "50")).1 =
      .ok ⟨"Withdrawal successful", 1950, 50⟩
  ∧ getAccount (withdraw seedStore (some "customer1") (.str "50")).2
      (some "customer1")
      = some { balance := 1950, interestRate := 1 / 20,
               lastWithdrawal := some 50, currency := "USD" } := by
  have h := withdraw_success_spec seedStore (some "customer1") (.str "50")
    50 ⟨2000, 1 / 20, none, "USD"⟩ (by decide) (by decide) (by decide) (by decide)
  refine ⟨?_, ?_⟩
  · rw [h.1]
    norm_num
  · rw [h.2.2]
    norm_num

/-- C3: the withdraw route validates in a fixed order, each failure a
distinct reportable error: a non-numeric amount is `NotANumber`
whatever the rest of the request; a numeric non-positive amount is
`InvalidAmount` whether or not the account resolves; a positive amount
with an unresolvable account is `NotFound`; a positive amount above
the resolved balance is `InsufficientFunds`; and the four errors carry
pairwise-distinct messages. -/
theorem withdraw_validation_order (store : Store) (u : Option String)
    (raw : JsValue) :
    (toNumber raw = .nan → (withdraw store u raw).1 = .err .NotANumber)
  ∧ (∀ a, toNumber raw = .val a → a ≤ 0 →
      (withdraw store u raw).1 = .err .InvalidAmount)
  ∧ (∀ a, toNumber raw = .val a → 0 < a → getAccount store u = none →
      (withdraw store u raw).1 = .err .NotFound)
  ∧ (∀ a acct, toNumber raw = .val a → 0 < a →
      getAccount store u = some acct → acct.balance < a →
      (withdraw store u raw).1 = .err .InsufficientFunds)
  ∧ (∀ e1 e2 : WithdrawError, e1.message = e2.message → e1 = e2) := by
  refine ⟨?_, ?_, ?_, ?_, ?_⟩
  · intro hn; simp [withdraw, hn]
  · intro a hn hle; simp [withdraw, hn, hle]
  · intro a hn hpos hg; simp [withdraw, hn, not_le.mpr hpos, hg]
  · intro a acct hn hpos hg hins; simp [withdraw, hn, not_le.mpr hpos, hg, hins]
  · intro e1 e2 h
    cases e1 <;> cases e2 <;> first | rfl | (exfalso; simp [WithdrawError.message] at h)

/-- C3 witness: on the seed store, a missing amount reports
`NotANumber`, zero reports `InvalidAmount`, an unknown user reports
`NotFound`, and an overdraft reports `InsufficientFunds`. -/
theorem withdraw_validation_order_witness :
    (withdraw seedStore (some "customer1") .undefined).1 = .err .NotANumber
  ∧ (withdraw seedStore (some "customer1") .null).1 = .err .InvalidAmount
  ∧ (withdraw seedStore (some "ghost") (.num (.val 5))).1 = .err .NotFound
  ∧ (withdraw seedStore (some "customer1") (.num (.val 2500))).1 =
      .err .InsufficientFunds :=
  ⟨(withdraw_validation_order seedStore (some "customer1") .undefined).1 rfl,
   (withdraw_validation_order seedStore (some "customer1") .null).2.1 0 rfl
     (by decide),
   (withdraw_validation_order seedStore (some "ghost") (.num (.val 5))).2.2.1 5
     rfl (by decide) (by decide),
   (withdraw_validation_order seedStore (some "customer1")
       (.num (.val 2500))).2.2.2.1 2500 ⟨2000, 1 / 20, none, "USD"⟩ rfl
     (by decide) (by decide) (by decide)⟩

/-- C4: every failing withdraw call returns the store exactly as it
was, and a non-numeric or non-positive amount always fails (with
`NotANumber`, respectively `InvalidAmount`). -/
theorem withdraw_error_no_mutation (store : Store) (u : Option String)
    (raw : JsValue) :
    (∀ e, (withdraw store u raw).1 = .err e → (withdraw store u raw).2 = store)
  ∧ (toNumber raw = .nan → (withdraw store u raw).1 = .err .NotANumber)
  ∧ (∀ a, toNumber raw = .val a → a ≤ 0 →
      (withdraw store u raw).1 = .err .InvalidAmount) := by
  refine ⟨?_, ?_, ?_⟩
  · intro e he
    unfold withdraw at he ⊢
    cases hn : toNumber raw with
    | nan => rfl
    | val amount =>
        rw [hn] at he
        by_cases hle : amount ≤ 0
        · simp [hle]
        · cases hg : getAccount store u with
          | none => simp [hle, hg]
          | some acct =>
              by_cases hins : acct.balance < amount
              · simp [hle, hg, hins]
              · simp [hle, hg, hins] at he
  · intro hn; simp [withdraw, hn]
  · intro a hn hle; simp [withdraw, hn, hle]

/-- C4 witness: a withdraw of the non-numeric string `"abc"` and one
of the non-positive amount `-5` both fail and leave the seed store
unchanged. -/
theorem withdraw_error_no_mutation_witness :
    (withdraw seedStore (some "customer1") (.str "abc")).1 = .err .NotANumber
  ∧ (withdraw seedStore (some "customer1") (.str "abc")).2 = seedStore
  ∧ (withdraw seedStore (some "customer1") (.num (.val (-5)))).1 =
      .err .InvalidAmount
  ∧ (withdraw seedStore (some "customer1") (.num (.val (-5)))).2 = seedStore := by
  have h1 := (withdraw_error_no_mutation seedStore (some "customer1")
    (.str "abc")).2.1 (by decide)
  have h2 := (withdraw_error_no_mutation seedStore (some "customer1")
    (.num (.val (-5)))).2.2 (-5) rfl (by decide)
  exact ⟨h1,
    (withdraw_error_no_mutation seedStore (some "customer1") (.str "abc")).1 _ h1,
    h2,
    (withdraw_error_no_mutation seedStore (some "customer1")
      (.num (.val (-5)))).1 _ h2⟩

/-- C5: the interest route never writes the store, and for a resolved
account it reports exactly `balance * interestRate` yearly and a
twelfth of that monthly, recomputed from the current fields; calling
it again on the store it returned yields the identical result, so
interest is never compounded into the balance. -/
theorem projectInterest_pure (store : Store) (u : Option String) :
    ((projectInterest store u).2 = store)
  ∧ (∀ acct, getAccount store u = some acct →
      (projectInterest store u).1 =
        some ⟨acct.balance, acct.interestRate,
              acct.balance * acct.interestRate,
              acct.balance * acct.interestRate / 12, acct.currency⟩)
  ∧ projectInterest (projectInterest store u).2 u = projectInterest store u := by
  have hst : (projectInterest store u).2 = store := by
    unfold projectInterest
    cases hg : getAccount store u <;> rfl
  refine ⟨hst, ?_, by rw [hst]⟩
  intro acct hg
  simp [projectInterest, hg]

/-- C5 witness: on the seed account (balance 2000, rate 0.05) the
interest route reports 100 yearly and 25 / 3 monthly, and repeating
the call gives the same answer. -/
theorem projectInterest_pure_witness :
    (projectInterest seedStore (some "customer1")).1 =
      some ⟨2000, 1 / 20, 100, 25 / 3, "USD"⟩
  ∧ projectInterest (projectInterest seedStore (some "customer1")).2
      (some "customer1") = projectInterest seedStore (some "customer1") := by
  have h := projectInterest_pure seedStore (some "customer1")
  refine ⟨?_, h.2.2⟩
  rw [h.2.1 ⟨2000, 1 / 20, none, "USD"⟩ (by decide)]
  norm_num

/-- C6: a token issued for `u` carries expiry issued-at plus one hour,
verifies successfully against the issuing secret at any time strictly
before that expiry yielding username `u`, and is rejected at any time
at or past the expiry. -/
theorem token_issue_validate (secret u : String) (t0 now : ℕ) :
    ((jwtSign secret u t0).payload.exp = t0 + 3600)
  ∧ (now < t0 + 3600 →
      jwtVerify secret (jwtSign secret u t0) now = some ⟨u, t0, t0 + 3600⟩)
  ∧ (t0 + 3600 ≤ now → jwtVerify secret (jwtSign secret u t0) now = none) := by
  refine ⟨rfl, ?_, ?_⟩
  · intro h
    simp [jwtVerify, jwtSign, h]
  · intro h
    simp [jwtVerify, jwtSign, not_lt.mpr h]

/-- C6 witness: a token issued at time 100 for `customer1` verifies at
time 3699 with username `customer1` and is rejected at time 3700. -/
theorem token_issue_validate_witness :
    jwtVerify "dev-secret" (jwtSign "dev-secret" "customer1" 100) 3699 =
      some ⟨"customer1", 100, 3700⟩
  ∧ jwtVerify "dev-secret" (jwtSign "dev-secret" "customer1" 100) 3700 = none :=
  ⟨(token_issue_validate "dev-secret" "customer1" 100 3699).2.1 (by decide),
   (token_issue_validate "dev-secret" "customer1" 100 3700).2.2 (by decide)⟩

/-- C7: when the Authorization header (a missing one is read as the
empty string) does not split on spaces into exactly two parts with the
first literally `Bearer`, the middleware rejects with
`MissingOrInvalidHeader`, reported as 401, and the outcome is
identical for every secret, wire decoder and clock — no cryptographic
work can influence it. -/
theorem auth_header_structural_check (secret : String)
    (decode : String → Option Token) (header : Option String) (now : ℕ)
    (h : (splitOnChar ' ' ((header.getD "").toList)).length ≠ 2 ∨
         (splitOnChar ' ' ((header.getD "").toList)).head? ≠
           some ("Bearer".toList)) :
    authMiddleware secret decode header now = .error .MissingOrInvalidHeader
  ∧ AuthError.status .MissingOrInvalidHeader = 401
  ∧ ∀ (secret2 : String) (decode2 : String → Option Token) (now2 : ℕ),
      authMiddleware secret decode header now =
        authMiddleware secret2 decode2 header now2 := by
  have hp : parseAuthHeader header = none := by
    unfold parseAuthHeader
    cases hs : splitOnChar ' ' ((header.getD "").toList) with
    | nil => rfl
    | cons g gs =>
        cases gs with
        | nil => rfl
        | cons g2 gs2 =>
            cases gs2 with
            | nil =>
                rw [hs] at h
                rcases h with h | h
                · exact absurd rfl h
                · simp only [List.head?] at h
                  show (if g = "Bearer".toList then some (String.mk g2)
                        else none) = none
                  exact if_neg (fun hb => h (by rw [hb]))
            | cons g3 gs3 => rfl
  have hm : authMiddleware secret decode header now =
      .error .MissingOrInvalidHeader := by
    unfold authMiddleware
    rw [hp]
  refine ⟨hm, rfl, ?_⟩
  intro secret2 decode2 now2
  rw [hm]
  unfold authMiddleware
  rw [hp]

/-- C7 witness: the missing header, a one-part header, a three-part
header and a wrong-scheme header are all rejected with
`MissingOrInvalidHeader` regardless of the decoder and secret. -/
theorem auth_header_structural_check_witness :
    authMiddleware "dev-secret" (fun _ => none) none 0 =
      .error .MissingOrInvalidHeader
  ∧ authMiddleware "dev-secret" (fun _ => none) (some "Bearer") 0 =
      .error .MissingOrInvalidHeader
  ∧ authMiddleware "dev-secret" (fun _ => none) (some "Bearer a b") 0 =
      .error .MissingOrInvalidHeader
  ∧ authMiddleware "dev-secret" (fun _ => none) (some "Basic abc") 0 =
      .error .MissingOrInvalidHeader :=
  ⟨(auth_header_structural_check "dev-secret" (fun _ => none) none 0
      (by decide)).1,
   (auth_header_structural_check "dev-secret" (fun _ => none) (some "Bearer") 0
      (by decide)).1,
   (auth_header_structural_check "dev-secret" (fun _ => none)
      (some "Bearer a b") 0 (by decide)).1,
   (auth_header_structural_check "dev-secret" (fun _ => none)
      (some "Basic abc") 0 (by decide)).1⟩

/-- C8: the code violates the claim: the username `constructor` is
absent from the seed store, yet login does not return the uniform
`401 Invalid credentials` — the property read `users["constructor"]`
finds the inherited, truthy `Object.prototype.constructor`, so the
`!user` guard does not fire and `bcrypt.compare` is invoked with an
`undefined` hash, faulting the handler; by contrast the plain unknown
username `nobody` and a wrong password for `customer1` do share the
identical 401 response. -/
theorem login_prototype_chain_fault :
    Store.find? seedStore "constructor" = none
  ∧ login "dev-secret" seedStore "constructor" "bank123" 0 = .fault
  ∧ login "dev-secret" seedStore "constructor" "bank123" 0 ≠
      .failure 401 "Invalid credentials"
  ∧ login "dev-secret" seedStore "nobody" "bank123" 0 =
      .failure 401 "Invalid credentials"
  ∧ login "dev-secret" seedStore "customer1" "wrong" 0 =
      .failure 401 "Invalid credentials" := by decide

/-- Splitting a list free of the separator yields the single group. -/
theorem splitOnChar_not_mem (sep : Char) (l : List Char) (h : sep ∉ l) :
    splitOnChar sep l = [l] := by
  induction l with
  | nil => rfl
  | cons c cs ih =>
      have hc : ¬ c = sep := fun hce => h (hce ▸ List.mem_cons_self c cs)
      have hcs : sep ∉ cs := fun hm => h (List.mem_cons_of_mem c hm)
      simp [splitOnChar, hc, ih hcs]

/-- Splitting peels off a separator-free prefix as its own group. -/
theorem splitOnChar_append (sep : Char) (l1 l2 : List Char) (h : sep ∉ l1) :
    splitOnChar sep (l1 ++ sep :: l2) = l1 :: splitOnChar sep l2 := by
  induction l1 with
  | nil => simp [splitOnChar]
  | cons c cs ih =>
      have hc : ¬ c = sep := fun hce => h (hce ▸ List.mem_cons_self c cs)
      have hcs : sep ∉ cs := fun hm => h (List.mem_cons_of_mem c hm)
      simp [splitOnChar, hc, ih hcs]

/-- A well-formed bearer header around a space-free token string
parses to exactly that token string. -/
theorem parseAuthHeader_bearer (s : String) (hs : ' ' ∉ s.toList) :
    parseAuthHeader (some ("Bearer " ++ s)) = some s := by
  have hl : ("Bearer " ++ s).toList = "Bearer".toList ++ ' ' :: s.toList := by
    simp [String.toList, String.data_append]
  unfold parseAuthHeader
  simp only [Option.getD_some, hl,
    splitOnChar_append ' ' "Bearer".toList s.toList (by decide),
    splitOnChar_not_mem ' ' s.toList hs]
  simp

/-- C9 counterexample: a correctly signed, unexpired token for the
absent principal `ghost` passes the validator, yet the withdraw
operation invoked with it and a missing amount fails with
`400 Amount must be a number` — not with the 404 `NotFound` the claim
promises for every subsequent ledger operation. -/
theorem validator_ghost_withdraw_counterexample :
    (withdrawEndpoint "dev-secret"
        (fun x => if x = "tok" then some (jwtSign "dev-secret" "ghost" 0)
                  else none)
        (some "Bearer tok") 10 seedStore .undefined).1 =
      .failure 400 "Amount must be a number"
  ∧ (withdrawEndpoint "dev-secret"
        (fun x => if x = "tok" then some (jwtSign "dev-secret" "ghost" 0)
                  else none)
        (some "Bearer tok") 10 seedStore .undefined).1 ≠
      .failure 404 "Account not found" := by decide

/-- C9 (amended): the validator never consults the identity store: a
correctly signed, unexpired token naming an absent principal passes
the middleware with that username, after which `getAccount` and
`projectInterest` fail `404 Account not found`, `withdraw` fails
`404 Account not found` provided its amount passes the earlier
numeric and positivity checks, and every withdraw failure through
this pipeline carries status 400 or 404 — never the authorization
status 401. -/
theorem validator_skips_store_check (secret : String)
    (decode : String → Option Token) (store : Store) (u s : String)
    (t0 now : ℕ) (raw : JsValue) (a : ℚ)
    (hs : ' ' ∉ s.toList)
    (hdec : decode s = some (jwtSign secret u t0))
    (hnow : now < t0 + 3600)
    (habsent : Store.find? store u = none)
    (ha : toNumber raw = .val a) (hpos : 0 < a) :
    authMiddleware secret decode (some ("Bearer " ++ s)) now = .ok u
  ∧ accountEndpoint secret decode (some ("Bearer " ++ s)) now store =
      .failure 404 "Account not found"
  ∧ interestEndpoint secret decode (some ("Bearer " ++ s)) now store =
      .failure 404 "Account not found"
  ∧ (withdrawEndpoint secret decode (some ("Bearer " ++ s)) now store raw).1 =
      .failure 404 "Account not found"
  ∧ (∀ raw2 st m,
      (withdrawEndpoint secret decode (some ("Bearer " ++ s)) now
          store raw2).1 = .failure st m → st = 400 ∨ st = 404) := by
  have hga : getAccount store (some u) = none := by
    by_cases he : u = "" <;> simp [getAccount, he, habsent]
  have hmid : authMiddleware secret decode (some ("Bearer " ++ s)) now =
      .ok u := by
    unfold authMiddleware
    rw [parseAuthHeader_bearer s hs]
    simp [hdec, jwtVerify, jwtSign, hnow]
  refine ⟨hmid, ?_, ?_, ?_, ?_⟩
  · unfold accountEndpoint
    rw [hmid]
    simp [hga]
  · unfold interestEndpoint
    rw [hmid]
    simp [projectInterest, hga]
  · unfold withdrawEndpoint
    rw [hmid]
    simp [withdraw, ha, not_le.mpr hpos, hga, WithdrawError.status,
      WithdrawError.message]
  · intro raw2 st m hw
    have hpipe : withdrawEndpoint secret decode (some ("Bearer " ++ s)) now
        store raw2 =
        (match withdraw store (some u) raw2 with
         | (.err e, s2) => (.failure e.status e.message, s2)
         | (.ok r, s2) => (.success r, s2)) := by
      unfold withdrawEndpoint
      rw [hmid]
    rw [hpipe] at hw
    rcases hr : withdraw store (some u) raw2 with ⟨out, s2⟩
    rw [hr] at hw
    cases out with
    | ok r => simp at hw
    | err e =>
        simp only [EndpointResult.failure.injEq] at hw
        rw [← hw.1]
        cases e <;> simp [WithdrawError.status]

/-- C9 witness: the concrete ghost-token pipeline of the
counterexample, given the positive amount 5, reaches the ledger and
fails `404 Account not found` on all three operations. -/
theorem validator_skips_store_check_witness :
    authMiddleware "dev-secret"
        (fun x => if x = "tok" then some (jwtSign "dev-secret" "ghost" 0)
                  else none) (some "Bearer tok") 10 = .ok "ghost"
  ∧ accountEndpoint "dev-secret"
        (fun x => if x = "tok" then some (jwtSign "dev-secret" "ghost" 0)
                  else none) (some "Bearer tok") 10 seedStore =
      .failure 404 "Account not found"
  ∧ (withdrawEndpoint "dev-secret"
        (fun x => if x = "tok" then some (jwtSign "dev-secret" "ghost" 0)
                  else none) (some "Bearer tok") 10 seedStore
        (.num (.val 5))).1 =
      .failure 404 "Account not found" := by
  have h := validator_skips_store_check "dev-secret"
    (fun x => if x = "tok" then some (jwtSign "dev-secret" "ghost" 0)
              else none) seedStore "ghost" "tok" 0 10 (.num (.val 5)) 5
    (by decide) (by decide) (by decide) (by decide) rfl (by decide)
  exact ⟨h.1, h.2.1, h.2.2.2.1⟩

/-- C10 counterexample: a missing amount (`undefined`) coerces to
`NaN`, so the withdraw route rejects it as `NotANumber` — not as the
`InvalidAmount` the claim assigns to a missing amount. -/
theorem number_coercion_counterexample :
    toNumber .undefined = .nan
  ∧ (withdraw seedStore (some "customer1") .undefined).1 = .err .NotANumber
  ∧ (withdraw seedStore (some "customer1") .undefined).1 ≠
      .err .InvalidAmount := by decide

/-- C10 (amended): the withdraw route coerces the request amount with
`Number()` before the numeric check: `null`, the empty string and a
whitespace string coerce to 0 and are rejected as `InvalidAmount`
rather than `NotANumber`, a missing amount coerces to `NaN` and is
rejected as `NotANumber`, while boolean `true` coerces to 1 and the
numeric string `"50"` to 50, so those non-number inputs pass the
numeric check and trigger successful withdrawals. -/
theorem number_coercion_spec :
    (toNumber .null = .val 0
      ∧ (withdraw seedStore (some "customer1") .null).1 = .err .InvalidAmount)
  ∧ (toNumber (.str "") = .val 0
      ∧ (withdraw seedStore (some "customer1") (.str "")).1 =
          .err .InvalidAmount)
  ∧ (toNumber (.str "  ") = .val 0
      ∧ (withdraw seedStore (some "customer1") (.str "  ")).1 =
          .err .InvalidAmount)
  ∧ (toNumber .undefined = .nan
      ∧ (withdraw seedStore (some "customer1") .undefined).1 =
          .err .NotANumber)
  ∧ (toNumber (.bool true) = .val 1
      ∧ (withdraw seedStore (some "customer1") (.bool true)).1 =
          .ok ⟨"Withdrawal successful", 1999, 1⟩)
  ∧ (toNumber (.str "50") = .val 50
      ∧ (withdraw seedStore (some "customer1") (.str "50")).1 =
          .ok ⟨"Withdrawal successful", 1950, 50⟩) := by decide

end BankApi
